import Mathlib

/-!
Shallow embedding of `edgefxn.py`, a command-line utility that downloads
precompiled native binaries from a CDN into a fixed plugin directory tree.

The network is modelled as a function `String → Option Response`: `none`
means the request could not be completed (a connection error), `some r`
gives the HTTP response.  The filesystem is modelled as an explicit state
`FS`: a set of existing directories and an association list of files.
Python's `open(path, "wb")` succeeds exactly when the parent directory of
`path` exists (otherwise `FileNotFoundError`), and truncates the file.
`requests.Response.raise_for_status` raises exactly for status codes `s`
with `400 ≤ s < 600` (client and server errors), per the requests library.
-/

namespace EdgeFxn

/-- An HTTP response: status code, raw body bytes, and the result of
parsing the body as a JSON object with string-valued fields
(`none` when the body is not such an object). -/
structure Response where
  status : Nat
  body : List Nat
  json : Option (List (String × String))
deriving Repr, DecidableEq

/-- The Python exceptions the script can raise. -/
inductive PyErr where
  | connection
  | httpStatus (code : Nat)
  | fileNotFound
  | parse
  | keyError
deriving Repr, DecidableEq

/-- A filesystem state: the directories that exist (as component lists)
and the files that exist, mapping path components to byte contents. -/
structure FS where
  dirs : List (List String)
  files : List (List String × List Nat)
deriving Repr, DecidableEq

/-- Read a file back: the contents at path `p`, if present. -/
def readFile (fs : FS) (p : List String) : Option (List Nat) :=
  (fs.files.find? (fun q => q.1 == p)).map (fun q => q.2)

/-- `open(path, "wb")` followed by a full write: succeeds exactly when the
parent directory of `p` exists, replacing any previous contents of `p`;
`none` models `FileNotFoundError`.  No directory is ever created. -/
def writeFile (fs : FS) (p : List String) (data : List Nat) : Option FS :=
  if p.dropLast ∈ fs.dirs then
    some ⟨fs.dirs, (p, data) :: fs.files.filter (fun q => q.1 ≠ p)⟩
  else
    none

/-- `requests.Response.raise_for_status` raises `HTTPError` exactly for
4xx client errors and 5xx server errors. -/
def raisesForStatus (s : Nat) : Bool :=
  decide (400 ≤ s ∧ s < 600)

/-- Embedding of `_download_fxnc (url, path)`: GET the url, call
`raise_for_status`, then open the destination for binary writing and write
`response.content`.  Returns the new filesystem and the raised exception,
if any (the filesystem is only modified when the write happens). -/
def download_fxnc (http : String → Option Response) (fs : FS)
    (url : String) (path : List String) : FS × Option PyErr :=
  match http url with
  | none => (fs, some .connection)
  | some r =>
    if raisesForStatus r.status then
      (fs, some (.httpStatus r.status))
    else
      match writeFile fs path r.body with
      | none => (fs, some .fileNotFound)
      | some fs' => (fs', none)

/-- The fixed releases-metadata endpoint queried by `_get_latest_version`. -/
def releasesUrl : String := "https://api.github.com/repos/fxnai/fxnc/releases/latest"

/-- Python dict subscript `d[key]` on a JSON object, as an option
(`none` models `KeyError`). -/
def lookupKey (fields : List (String × String)) (key : String) : Option String :=
  (fields.find? (fun kv => kv.1 == key)).map (fun kv => kv.2)

/-- Embedding of `_get_latest_version ()`: one GET to `releasesUrl`,
`raise_for_status`, parse JSON, return the `tag_name` field.  The second
component records the list of URLs requested, in order. -/
def get_latest_version (http : String → Option Response) :
    Except PyErr String × List String :=
  match http releasesUrl with
  | none => (.error .connection, [releasesUrl])
  | some r =>
    if raisesForStatus r.status then
      (.error (.httpStatus r.status), [releasesUrl])
    else
      match r.json with
      | none => (.error .parse, [releasesUrl])
      | some fields =>
        match lookupKey fields "tag_name" with
        | none => (.error .keyError, [releasesUrl])
        | some tag => (.ok tag, [releasesUrl])

/-- Embedding of `version = args.version if args.version else
_get_latest_version()`: Python truthiness makes `None` and the empty
string fall through to the metadata request.  The second component
records the URLs requested. -/
def resolveVersion (http : String → Option Response) (explicit : Option String) :
    Except PyErr String × List String :=
  match explicit with
  | some s => if s = "" then get_latest_version http else (.ok s, [])
  | none => get_latest_version http

/-- One manifest entry: a source URL and a destination path. -/
structure Target where
  url : String
  path : List String
deriving Repr, DecidableEq

/-- `LIB_PATH_BASE = Path("Packages") / "ai.fxn.fxn3d" / "Plugins"`. -/
def LIB_PATH_BASE : List String := ["Packages", "ai.fxn.fxn3d", "Plugins"]

/-- Embedding of the `LIBS` list built in `main`: the seven (url, path)
pairs obtained by substituting `version` into the URL templates. -/
def buildManifest (version : String) : List Target :=
  [ ⟨"https://cdn.fxn.ai/edgefxn/" ++ version ++ "/libFunction-android-arm64-v8a.so",
      LIB_PATH_BASE ++ ["Android", "arm64-v8a", "libFunction.so"]⟩,
    ⟨"https://cdn.fxn.ai/edgefxn/" ++ version ++ "/libFunction-android-armeabi-v7a.so",
      LIB_PATH_BASE ++ ["Android", "armeabi-v7a", "libFunction.so"]⟩,
    ⟨"https://cdn.fxn.ai/edgefxn/" ++ version ++ "/libFunction-android-x86.so",
      LIB_PATH_BASE ++ ["Android", "x86", "libFunction.so"]⟩,
    ⟨"https://cdn.fxn.ai/edgefxn/" ++ version ++ "/libFunction-android-x86_64.so",
      LIB_PATH_BASE ++ ["Android", "x86_64", "libFunction.so"]⟩,
    ⟨"https://cdn.fxn.ai/edgefxn/" ++ version ++ "/Function-macos.dylib",
      LIB_PATH_BASE ++ ["macOS", "Function.dylib"]⟩,
    ⟨"https://cdn.fxn.ai/edgefxn/" ++ version ++ "/Function.wasm",
      LIB_PATH_BASE ++ ["Web", "libFunction.so"]⟩,
    ⟨"https://cdn.fxn.ai/edgefxn/" ++ version ++ "/Function-win64.dll",
      LIB_PATH_BASE ++ ["Windows", "Function.dll"]⟩ ]

/-- Embedding of the download loop `for lib in LIBS: _download_fxnc (...)`:
processes targets in order, stopping at the first raised exception.
Returns the final filesystem, the URLs requested in order, and the
uncaught exception, if any. -/
def runTargets (http : String → Option Response) (fs : FS) :
    List Target → FS × List String × Option PyErr
  | [] => (fs, [], none)
  | t :: ts =>
    match download_fxnc http fs t.url t.path with
    | (fsE, some e) => (fsE, [t.url], some e)
    | (fs', none) =>
      match runTargets http fs' ts with
      | (fs'', urls, err) => (fs'', t.url :: urls, err)

/-- Process exit code: `0` on a clean run, nonzero when an exception
propagates out of `main` uncaught. -/
def exitCode (err : Option PyErr) : Nat :=
  match err with
  | none => 0
  | some _ => 1

/-- Embedding of `main ()`: resolve the version, build the manifest,
download every target in order.  Returns the final filesystem, all URLs
requested, and the process exit code. -/
def run (http : String → Option Response) (fs : FS) (explicit : Option String) :
    FS × List String × Nat :=
  match resolveVersion http explicit with
  | (.error _, urls) => (fs, urls, 1)
  | (.ok version, urls) =>
    match runTargets http fs (buildManifest version) with
    | (fs', durls, err) => (fs', urls ++ durls, exitCode err)

/-- The arm64-v8a Android URL for version `v1.2.3` (first manifest entry). -/
def arm64Url : String :=
  "https://cdn.fxn.ai/edgefxn/v1.2.3/libFunction-android-arm64-v8a.so"

/-- The arm64-v8a Android destination path. -/
def arm64Path : List String :=
  LIB_PATH_BASE ++ ["Android", "arm64-v8a", "libFunction.so"]

/-- A filesystem in which every parent directory of the `v1.2.3` manifest
already exists and no file exists yet. -/
def fsAllDirs : FS :=
  ⟨(buildManifest "v1.2.3").map (fun t => t.path.dropLast), []⟩

/-- A filesystem holding the arm64 destination file with contents
`[1, 2, 3]` (and its parent directory). -/
def fs9 : FS := ⟨[arm64Path.dropLast], [(arm64Path, [1, 2, 3])]⟩

/-- A network in which the arm64 artifact answers status 304 with an empty
body, and every other URL answers 200. -/
def http304 : String → Option Response := fun url =>
  if url = arm64Url then some ⟨304, [], none⟩ else some ⟨200, [1], none⟩

theorem string_append_assoc (a b c : String) : a ++ b ++ c = a ++ (b ++ c) := by
  cases a with
  | mk la =>
    cases b with
    | mk lb =>
      cases c with
      | mk lc =>
        show String.mk (la ++ lb ++ lc) = String.mk (la ++ (lb ++ lc))
        rw [List.append_assoc]

theorem writeFile_of_mem (fs : FS) (p : List String) (data : List Nat)
    (h : p.dropLast ∈ fs.dirs) :
    writeFile fs p data =
      some ⟨fs.dirs, (p, data) :: fs.files.filter (fun q => q.1 ≠ p)⟩ := by
  unfold writeFile
  rw [if_pos h]

theorem writeFile_of_not_mem (fs : FS) (p : List String) (data : List Nat)
    (h : ¬ p.dropLast ∈ fs.dirs) : writeFile fs p data = none := by
  unfold writeFile
  rw [if_neg h]

theorem readFile_writeFile (fs fs' : FS) (p : List String) (data : List Nat)
    (h : writeFile fs p data = some fs') : readFile fs' p = some data := by
  unfold writeFile at h
  split at h
  · cases h
    simp [readFile]
  · cases h

theorem get_latest_version_requests (http : String → Option Response) :
    (get_latest_version http).2 = [releasesUrl] := by
  unfold get_latest_version
  cases http releasesUrl with
  | none => rfl
  | some r =>
    dsimp only
    split
    · rfl
    · cases r.json with
      | none => rfl
      | some fields =>
        dsimp only
        cases lookupKey fields "tag_name" with
        | none => rfl
        | some tag => rfl

theorem runTargets_cons_err (http : String → Option Response) (fs fsE : FS)
    (t : Target) (ts : List Target) (e : PyErr)
    (h : download_fxnc http fs t.url t.path = (fsE, some e)) :
    runTargets http fs (t :: ts) = (fsE, [t.url], some e) := by
  unfold runTargets
  rw [h]

theorem runTargets_cons_ok (http : String → Option Response) (fs fs' : FS)
    (t : Target) (ts : List Target)
    (h : download_fxnc http fs t.url t.path = (fs', none)) :
    runTargets http fs (t :: ts) =
      ((runTargets http fs' ts).1,
        t.url :: (runTargets http fs' ts).2.1,
        (runTargets http fs' ts).2.2) := by
  cases hrec : runTargets http fs' ts with
  | mk a bc =>
    cases bc with
    | mk b c =>
      simp only [runTargets, h, hrec]

theorem runTargets_append (http : String → Option Response)
    (pre rest : List Target) (fs fs₁ : FS) (urls₁ : List String)
    (h : runTargets http fs pre = (fs₁, urls₁, none)) :
    runTargets http fs (pre ++ rest) =
      ((runTargets http fs₁ rest).1,
        urls₁ ++ (runTargets http fs₁ rest).2.1,
        (runTargets http fs₁ rest).2.2) := by
  induction pre generalizing fs fs₁ urls₁ with
  | nil =>
    unfold runTargets at h
    obtain ⟨rfl, rfl, -⟩ : fs = fs₁ ∧ [] = urls₁ ∧ True := by
      simpa [Prod.ext_iff] using h
    simp
  | cons t ts ih =>
    cases hd : download_fxnc http fs t.url t.path with
    | mk fsd errd =>
      cases errd with
      | some e =>
        rw [runTargets_cons_err http fs fsd t ts e hd] at h
        simp at h
      | none =>
        rw [runTargets_cons_ok http fs fsd t ts hd] at h
        cases hrec : runTargets http fsd ts with
        | mk fs₂ p₂ =>
          cases p₂ with
          | mk urls₂ err₂ =>
            rw [hrec] at h
            dsimp only at h
            obtain ⟨rfl, rfl, rfl⟩ : fs₂ = fs₁ ∧ t.url :: urls₂ = urls₁ ∧ err₂ = none := by
              simpa [Prod.ext_iff] using h
            rw [show (t :: ts) ++ rest = t :: (ts ++ rest) from rfl,
              runTargets_cons_ok http fs fsd t (ts ++ rest) hd,
              ih fsd fs₂ urls₂ hrec]
            simp

theorem download_fxnc_ok (http : String → Option Response) (fs fs' : FS)
    (url : String) (path : List String)
    (h : download_fxnc http fs url path = (fs', none)) :
    ∃ r, http url = some r ∧ writeFile fs path r.body = some fs' := by
  unfold download_fxnc at h
  cases hr : http url with
  | none =>
    rw [hr] at h
    simp at h
  | some r =>
    rw [hr] at h
    dsimp only at h
    split at h
    · simp at h
    · cases hw : writeFile fs path r.body with
      | none =>
        rw [hw] at h
        simp at h
      | some fs₂ =>
        rw [hw] at h
        dsimp only at h
        obtain ⟨rfl, -⟩ : fs₂ = fs' ∧ True := by
          simpa [Prod.ext_iff] using h
        exact ⟨r, rfl, hw⟩

/-- C1 (counterexample): with a fully successful HTTP response (status
200, a 2xx success) and the platform subdirectories missing, the download
of the first manifest target does not succeed: `_download_fxnc` raises
`FileNotFoundError` and creates no directory, because the code never
ensures parent directories exist before `open(path, "wb")`. -/
theorem C1_counterexample :
    (⟨arm64Url, arm64Path⟩ : Target) ∈ buildManifest "v1.2.3" ∧
    (200 ≤ 200 ∧ 200 ≤ 299) ∧
    download_fxnc (fun _ => some ⟨200, [7], none⟩) ⟨[], []⟩ arm64Url arm64Path
      = (⟨[], []⟩, some .fileNotFound) := by
  decide

/-- C1 (amended): `_download_fxnc` never creates parent directories.  On a
response that `raise_for_status` accepts, the write succeeds — leaving the
directory set unchanged and storing the body — exactly when the parent
directory of `target.path` already exists; when it is missing the call
fails with `FileNotFoundError` and leaves the filesystem untouched. -/
theorem C1_no_mkdir (http : String → Option Response) (fs : FS)
    (url : String) (path : List String) (r : Response)
    (hr : http url = some r) (hok : raisesForStatus r.status = false) :
    (path.dropLast ∈ fs.dirs →
      ∃ fs', download_fxnc http fs url path = (fs', none) ∧
        fs'.dirs = fs.dirs ∧ readFile fs' path = some r.body) ∧
    (¬ path.dropLast ∈ fs.dirs →
      download_fxnc http fs url path = (fs, some .fileNotFound)) := by
  constructor
  · intro hmem
    refine ⟨⟨fs.dirs, (path, r.body) :: fs.files.filter (fun q => q.1 ≠ path)⟩, ?_, rfl, ?_⟩
    · unfold download_fxnc
      rw [hr]
      simp only [hok, Bool.false_eq_true, if_false]
      rw [writeFile_of_mem fs path r.body hmem]
    · exact readFile_writeFile fs _ path r.body (writeFile_of_mem fs path r.body hmem)
  · intro hmem
    unfold download_fxnc
    rw [hr]
    simp only [hok, Bool.false_eq_true, if_false]
    rw [writeFile_of_not_mem fs path r.body hmem]

theorem C1_no_mkdir_witness :
    ∃ fs', download_fxnc (fun _ => some ⟨200, [7], none⟩)
        ⟨[arm64Path.dropLast], []⟩ arm64Url arm64Path = (fs', none) ∧
      fs'.dirs = (⟨[arm64Path.dropLast], []⟩ : FS).dirs ∧
      readFile fs' arm64Path = some [7] :=
  (C1_no_mkdir (fun _ => some ⟨200, [7], none⟩) ⟨[arm64Path.dropLast], []⟩
    arm64Url arm64Path ⟨200, [7], none⟩ rfl (by decide)).1 (by decide)

/-- C2: for every version string the manifest has exactly seven targets,
every URL contains the version string as a substring, and every
destination path lies under the fixed `Packages/ai.fxn.fxn3d/Plugins`
tree. -/
theorem C2_manifest_shape (version : String) :
    (buildManifest version).length = 7 ∧
    ∀ t ∈ buildManifest version,
      (∃ a b, t.url = a ++ version ++ b) ∧ ∃ rest, t.path = LIB_PATH_BASE ++ rest := by
  refine ⟨rfl, ?_⟩
  intro t ht
  simp only [buildManifest, List.mem_cons, List.not_mem_nil, or_false] at ht
  rcases ht with rfl | rfl | rfl | rfl | rfl | rfl | rfl <;>
    exact ⟨⟨_, _, rfl⟩, _, rfl⟩

/-- C3 (counterexample): a 304 response is not a 2xx success, yet
`raise_for_status` does not raise on it, so the run does not abort: with
the arm64 target answering 304, all seven targets are still requested and
the process exits cleanly, refuting "any non-2xx status aborts". -/
theorem C3_counterexample :
    (∃ t ∈ buildManifest "v1.2.3", t.url = arm64Url) ∧
    http304 arm64Url = some ⟨304, [], none⟩ ∧
    ¬ (200 ≤ 304 ∧ 304 ≤ 299) ∧
    (runTargets http304 fsAllDirs (buildManifest "v1.2.3")).2.1.length = 7 ∧
    (runTargets http304 fsAllDirs (buildManifest "v1.2.3")).2.2 = none := by
  decide

/-- C3 (amended): if a target's response has a 4xx or 5xx status (the
statuses `raise_for_status` raises on) and every earlier target in
manifest order succeeded, the run aborts at that target: no later target
is requested, the files written so far are kept as they are (no rollback,
and the failing target writes nothing), and the exit code is nonzero. -/
theorem C3_abort_on_error (http : String → Option Response) (fs fs₁ : FS)
    (urls₁ : List String) (pre post : List Target) (t : Target) (r : Response)
    (hpre : runTargets http fs pre = (fs₁, urls₁, none))
    (hr : http t.url = some r)
    (h4 : 400 ≤ r.status) (h6 : r.status < 600) :
    runTargets http fs (pre ++ t :: post) =
      (fs₁, urls₁ ++ [t.url], some (.httpStatus r.status)) ∧
    exitCode (runTargets http fs (pre ++ t :: post)).2.2 ≠ 0 := by
  have hraise : raisesForStatus r.status = true := by
    simp only [raisesForStatus, decide_eq_true_eq]
    exact ⟨h4, h6⟩
  have hdl : download_fxnc http fs₁ t.url t.path = (fs₁, some (.httpStatus r.status)) := by
    unfold download_fxnc
    rw [hr]
    simp [hraise]
  have hrun : runTargets http fs₁ (t :: post) = (fs₁, [t.url], some (.httpStatus r.status)) :=
    runTargets_cons_err http fs₁ fs₁ t post _ hdl
  have happ := runTargets_append http pre (t :: post) fs fs₁ urls₁ hpre
  rw [hrun] at happ
  rw [happ]
  exact ⟨rfl, by simp [exitCode]⟩

theorem C3_abort_on_error_witness :
    runTargets (fun _ => some ⟨404, [], none⟩) ⟨[], []⟩
        ([] ++ (⟨arm64Url, arm64Path⟩ : Target) :: []) =
      (⟨[], []⟩, [] ++ [arm64Url], some (.httpStatus 404)) ∧
    exitCode (runTargets (fun _ => some ⟨404, [], none⟩) ⟨[], []⟩
        ([] ++ (⟨arm64Url, arm64Path⟩ : Target) :: [])).2.2 ≠ 0 :=
  C3_abort_on_error (fun _ => some ⟨404, [], none⟩) ⟨[], []⟩ ⟨[], []⟩ [] [] []
    ⟨arm64Url, arm64Path⟩ ⟨404, [], none⟩ rfl rfl (by decide) (by decide)

/-- C4: a provided non-empty version string is returned verbatim with no
network request (the request log is empty), while an absent or empty
version triggers a request to the releases-API endpoint. -/
theorem C4_explicit_version (http : String → Option Response) (s : String)
    (h : ¬ s = "") :
    resolveVersion http (some s) = (.ok s, []) ∧
    (resolveVersion http none).2 = [releasesUrl] ∧
    (resolveVersion http (some "")).2 = [releasesUrl] := by
  refine ⟨?_, ?_, ?_⟩
  · show (if s = "" then get_latest_version http else (.ok s, [])) = (.ok s, [])
    rw [if_neg h]
  · exact get_latest_version_requests http
  · exact get_latest_version_requests http

theorem C4_explicit_version_witness :
    resolveVersion (fun _ => none) (some "v1.2.3") = (.ok "v1.2.3", []) ∧
    (resolveVersion (fun _ => none) none).2 = [releasesUrl] ∧
    (resolveVersion (fun _ => none) (some "")).2 = [releasesUrl] :=
  C4_explicit_version (fun _ => none) "v1.2.3" (by decide)

/-- C5: with `--version` omitted, `resolveVersion` issues exactly one GET,
to the releases endpoint, and when the response is a 2xx JSON object whose
`tag_name` field is present, it returns that field's value verbatim. -/
theorem C5_latest_tag (http : String → Option Response) (r : Response)
    (fields : List (String × String)) (tag : String)
    (hr : http releasesUrl = some r)
    (h2 : 200 ≤ r.status ∧ r.status ≤ 299)
    (hj : r.json = some fields)
    (ht : lookupKey fields "tag_name" = some tag) :
    resolveVersion http none = (.ok tag, [releasesUrl]) := by
  obtain ⟨h2a, h2b⟩ := h2
  have hok : raisesForStatus r.status = false := by
    simp only [raisesForStatus, decide_eq_false_iff_not]
    omega
  show get_latest_version http = _
  unfold get_latest_version
  rw [hr]
  simp [hok, hj, ht]

/-- A network whose every response is a 200 JSON object with
`tag_name = "v9.9.9"`. -/
def metaHttp : String → Option Response :=
  fun _ => some ⟨200, [], some [("tag_name", "v9.9.9")]⟩

theorem C5_latest_tag_witness :
    resolveVersion metaHttp none = (.ok "v9.9.9", [releasesUrl]) :=
  C5_latest_tag metaHttp ⟨200, [], some [("tag_name", "v9.9.9")]⟩
    [("tag_name", "v9.9.9")] "v9.9.9" rfl (by decide) rfl (by decide)

/-- C6: whenever `_download_fxnc` completes without an exception, the file
at `target.path` holds exactly the response body: reading it back yields
the body byte for byte, regardless of what was at that path before. -/
theorem C6_byte_exact (http : String → Option Response) (fs fs' : FS)
    (url : String) (path : List String)
    (h : download_fxnc http fs url path = (fs', none)) :
    ∃ r, http url = some r ∧ readFile fs' path = some r.body := by
  obtain ⟨r, hr, hw⟩ := download_fxnc_ok http fs fs' url path h
  exact ⟨r, hr, readFile_writeFile fs fs' path r.body hw⟩

theorem C6_byte_exact_witness :
    ∃ r, (fun _ : String => some (⟨200, [5, 6], none⟩ : Response)) arm64Url = some r ∧
      readFile (⟨[arm64Path.dropLast], [(arm64Path, [5, 6])]⟩ : FS) arm64Path
        = some r.body :=
  C6_byte_exact (fun _ => some ⟨200, [5, 6], none⟩)
    ⟨[arm64Path.dropLast], [(arm64Path, [9])]⟩
    ⟨[arm64Path.dropLast], [(arm64Path, [5, 6])]⟩ arm64Url arm64Path (by decide)

/-- C7: the `v1.2.3` manifest contains the Windows target: its URL ends in
`edgefxn/v1.2.3/Function-win64.dll` and its destination path ends in
`Windows/Function.dll`. -/
theorem C7_windows_target :
    ∃ t ∈ buildManifest "v1.2.3",
      (∃ a, t.url = a ++ "edgefxn/v1.2.3/Function-win64.dll") ∧
      ∃ b, t.path = b ++ ["Windows", "Function.dll"] := by
  refine ⟨⟨"https://cdn.fxn.ai/edgefxn/" ++ "v1.2.3" ++ "/Function-win64.dll",
      LIB_PATH_BASE ++ ["Windows", "Function.dll"]⟩, ?_,
      ⟨"https://cdn.fxn.ai/", ?_⟩, LIB_PATH_BASE, rfl⟩
  · decide
  · decide

/-- C8: for every version string, the seven destination paths of the
manifest are pairwise distinct, so no download overwrites another
target's output within a run. -/
theorem C8_paths_distinct (version : String) :
    ((buildManifest version).map Target.path).Nodup := by
  have hmap : (buildManifest version).map Target.path =
      [LIB_PATH_BASE ++ ["Android", "arm64-v8a", "libFunction.so"],
       LIB_PATH_BASE ++ ["Android", "armeabi-v7a", "libFunction.so"],
       LIB_PATH_BASE ++ ["Android", "x86", "libFunction.so"],
       LIB_PATH_BASE ++ ["Android", "x86_64", "libFunction.so"],
       LIB_PATH_BASE ++ ["macOS", "Function.dylib"],
       LIB_PATH_BASE ++ ["Web", "libFunction.so"],
       LIB_PATH_BASE ++ ["Windows", "Function.dll"]] := rfl
  rw [hmap]
  decide

/-- C9 (counterexample): a 304 response is not a 2xx success, yet
`_download_fxnc` does not leave the file as it was: it overwrites the
existing `[1, 2, 3]` contents with the (empty) 304 body, because
`raise_for_status` only raises on 4xx/5xx. -/
theorem C9_counterexample :
    ¬ (200 ≤ 304 ∧ 304 ≤ 299) ∧
    readFile fs9 arm64Path = some [1, 2, 3] ∧
    download_fxnc (fun _ => some ⟨304, [], none⟩) fs9 arm64Url arm64Path =
      (⟨[arm64Path.dropLast], [(arm64Path, [])]⟩, none) ∧
    readFile (⟨[arm64Path.dropLast], [(arm64Path, [])]⟩ : FS) arm64Path
      ≠ some [1, 2, 3] := by
  decide

/-- C9 (amended): when the GET fails (connection error) or returns a 4xx
or 5xx status (the statuses `raise_for_status` raises on),
`_download_fxnc` writes nothing: the filesystem — in particular the file
at `target.path`, existing or absent — is returned exactly as it was. -/
theorem C9_no_write_on_error (http : String → Option Response) (fs : FS)
    (url : String) (path : List String)
    (h : http url = none ∨ ∃ r, http url = some r ∧ 400 ≤ r.status ∧ r.status < 600) :
    ∃ e, download_fxnc http fs url path = (fs, some e) := by
  rcases h with h | ⟨r, hr, h4, h6⟩
  · refine ⟨.connection, ?_⟩
    unfold download_fxnc
    rw [h]
  · refine ⟨.httpStatus r.status, ?_⟩
    have hraise : raisesForStatus r.status = true := by
      simp only [raisesForStatus, decide_eq_true_eq]
      exact ⟨h4, h6⟩
    unfold download_fxnc
    rw [hr]
    simp [hraise]

theorem C9_no_write_on_error_witness :
    ∃ e, download_fxnc (fun _ => some ⟨404, [], none⟩) fs9 arm64Url arm64Path
      = (fs9, some e) :=
  C9_no_write_on_error (fun _ => some ⟨404, [], none⟩) fs9 arm64Url arm64Path
    (Or.inr ⟨⟨404, [], none⟩, rfl, by decide, by decide⟩)

/-- C10: for every version string, the Web manifest entry pairs the URL
ending in `Function.wasm` with the destination file `libFunction.so` in
the `Web` subdirectory — not a `.wasm`-named file. -/
theorem C10_web_target (version : String) :
    ∃ t ∈ buildManifest version,
      (∃ a, t.url = a ++ "Function.wasm") ∧
      t.path = LIB_PATH_BASE ++ ["Web", "libFunction.so"] := by
  refine ⟨⟨"https://cdn.fxn.ai/edgefxn/" ++ version ++ "/Function.wasm",
      LIB_PATH_BASE ++ ["Web", "libFunction.so"]⟩, ?_, ?_, rfl⟩
  · simp [buildManifest]
  · have hsl : ("/" : String) ++ "Function.wasm" = "/Function.wasm" := rfl
    refine ⟨"https://cdn.fxn.ai/edgefxn/" ++ version ++ "/", ?_⟩
    conv_rhs => rw [string_append_assoc, hsl]

end EdgeFxn
